import Mathlib

/-!
Shallow embedding of the LifeOS local-first persistence and synchronization
engine, and of its offline-delivery service worker.

Sources embedded here:
* `IndexedDBStorage` (src/unnamed/part_023) — the durable Local Store over idb.
* `SyncService` (src/unnamed/part_021) — the remote transport client.
* `SyncStorage` (src/lib/sync/sync-storage.ts) — the sync orchestrator.
* `getSyncConfig` (src/unnamed/part_022) — persisted sync configuration read.
* the service worker (src/unnamed/part_000) — install / activate / fetch.

Modelling conventions:
* Timestamps (`new Date().toISOString()`; compared via `getTime()`) are `Nat`.
  An absent-or-empty `createdAt` (JS falsy) is `none`.
* A JS value that may be `undefined` is an `Option`; the idb `db.delete`
  promise resolves to `undefined`, i.e. `(none : Option Unit)`.
* The IndexedDB object store (keyPath `id`) is a `List IStorable`; `put`
  replaces the entry with the same key or appends.
* Network effects are passed in explicitly: a `fetch` call's outcome is a
  `FetchResult` value (thrown network error, or a response with an `ok` flag
  and a body), and `navigator.onLine` is a `Bool` parameter.
-/

namespace LifeOS

/-- The Record Contract (`IStorable`, src/unnamed/part_023 / storage.interface):
a unique `id`, creation/modification timestamps, and otherwise opaque domain
fields collapsed into `payload`. -/
structure IStorable where
  id : String
  createdAt : Option Nat
  updatedAt : Nat
  payload : String
deriving Repr, DecidableEq

/-- One IndexedDB object store (per-collection partition), keyPath `id`. -/
abbrev DB := List IStorable

/-- idb `db.get(store, id)`: the record whose key is `id`, if any. -/
def dbGet (store : DB) (id : String) : Option IStorable :=
  store.find? (fun r => r.id = id)

/-- idb `db.put(store, item)` with keyPath `id`: replace the entry with the
same key, or append a new one. -/
def dbPut (store : DB) (item : IStorable) : DB :=
  if store.any (fun r => r.id = item.id) then
    store.map (fun r => if r.id = item.id then item else r)
  else
    store ++ [item]

/-- idb `db.delete(store, id)`: removes the entry; the promise resolves to
`undefined` (modelled as `none`). -/
def idbDelete (store : DB) (id : String) : DB × Option Unit :=
  (store.filter (fun r => r.id ≠ id), none)

namespace IndexedDBStorage

/-- `IndexedDBStorage.getAll` (src/unnamed/part_023 lines 79-82). -/
def getAll (store : DB) : List IStorable :=
  store

/-- `IndexedDBStorage.getById` (src/unnamed/part_023 lines 84-87). -/
def getById (store : DB) (id : String) : Option IStorable :=
  dbGet store id

/-- `IndexedDBStorage.save` (src/unnamed/part_023 lines 89-99):
`itemToSave = { ...item, updatedAt: now, createdAt: item.createdAt || now }`,
then `db.put`, returning `itemToSave`.  `now` is the clock reading taken at
the start of the call. -/
def save (now : Nat) (store : DB) (item : IStorable) : DB × IStorable :=
  let itemToSave : IStorable :=
    { item with updatedAt := now, createdAt := some (item.createdAt.getD now) }
  (dbPut store itemToSave, itemToSave)

/-- `IndexedDBStorage.delete` (src/unnamed/part_023 lines 101-105):
`const result = await db.delete(...); return result !== undefined;`. -/
def deleteOp (store : DB) (id : String) : DB × Bool :=
  let r := idbDelete store id
  (r.1, r.2.isSome)

end IndexedDBStorage

/-- `SyncConfig` (src/unnamed/part_022): `enabled`, optional `endpoint`,
optional `apiKey`.  An optional string field's JS value may be `undefined`
(`none`) or a string (possibly empty, which JS treats as falsy). -/
structure SyncConfig where
  enabled : Bool
  endpoint : Option String
  apiKey : Option String
deriving Repr, DecidableEq

/-- `defaultSyncConfig` (src/unnamed/part_022 lines 22-26): sync disabled,
no endpoint, no apiKey. -/
def defaultSyncConfig : SyncConfig :=
  { enabled := false, endpoint := none, apiKey := none }

/-- JS truthiness of an optional string: `undefined` and `""` are falsy. -/
def strTruthy : Option String → Bool
  | none => false
  | some s => s ≠ ""

/-- What `localStorage.getItem` does when read: it may throw (storage
unavailable) or return a string or `null`. -/
inductive StorageRead where
  | unavailable
  | value (v : Option String)
deriving Repr, DecidableEq

/-- `getSyncConfig` (src/unnamed/part_022 lines 31-46).  Parameters model the
runtime environment: `windowDefined` is `typeof window !== 'undefined'`,
`read` the behavior of `localStorage.getItem('lifeos-sync-config')`, and
`parse` the behavior of `JSON.parse` on the stored string (`none` = throws).
The try/catch turns both a thrown `getItem` and a thrown `JSON.parse` into a
fall-through to the default; `if (stored)` skips `null` and the empty
string. -/
def getSyncConfig (windowDefined : Bool) (read : StorageRead)
    (parse : String → Option SyncConfig) : SyncConfig :=
  if ¬ windowDefined then defaultSyncConfig
  else
    match read with
    | .unavailable => defaultSyncConfig
    | .value none => defaultSyncConfig
    | .value (some stored) =>
      if stored = "" then defaultSyncConfig
      else
        match parse stored with
        | none => defaultSyncConfig
        | some cfg => cfg

/-- Outcome of one `fetch` call: a thrown network error, or a response with
its `ok` flag and (for GETs) a parsed body. -/
inductive FetchResult (α : Type) where
  | netError
  | response (ok : Bool) (body : α)
deriving Repr, DecidableEq

namespace SyncService

/-- `SyncService.canSync` (src/unnamed/part_021 lines 25-35): sync enabled,
endpoint truthy, and `navigator.onLine`. -/
def canSync (cfg : SyncConfig) (online : Bool) : Bool :=
  if ¬ cfg.enabled ∨ ¬ strTruthy cfg.endpoint then false
  else if ¬ online then false
  else true

/-- `SyncService.uploadItemsAsync` (src/unnamed/part_021 lines 57-74): early
return when the endpoint is falsy; otherwise a PUT whose thrown network error
or non-ok response becomes a rejection (`Except.error`). -/
def uploadItemsAsync (cfg : SyncConfig) (upFetch : FetchResult Unit) :
    Except String Unit :=
  if ¬ strTruthy cfg.endpoint then .ok ()
  else
    match upFetch with
    | .netError => .error "network error"
    | .response ok _ => if ¬ ok then .error "Sync upload failed" else .ok ()

/-- `SyncService.uploadItems` (src/unnamed/part_021 lines 42-52): no-op when
`canSync` is false; otherwise fire-and-forget with `.catch` — every rejection
of the async upload is swallowed, so the caller always gets `()`. -/
def uploadItems (cfg : SyncConfig) (online : Bool)
    (upFetch : FetchResult Unit) : Unit :=
  if ¬ canSync cfg online then ()
  else
    match uploadItemsAsync cfg upFetch with
    | .ok _ => ()
    | .error _ => ()

/-- `SyncService.downloadItemsAsync` (src/unnamed/part_021 lines 99-144):
GET the remote snapshot; throw on network error or non-ok response; then keep
exactly the remote records whose `id` is absent from the caller-supplied
local snapshot (the conflict branch for existing ids pushes nothing). -/
def downloadItemsAsync (cfg : SyncConfig)
    (dlFetch : FetchResult (List IStorable)) (localItems : List IStorable) :
    Except String (List IStorable) :=
  if ¬ strTruthy cfg.endpoint then .ok []
  else
    match dlFetch with
    | .netError => .error "network error"
    | .response ok items =>
      if ¬ ok then .error "Sync download failed"
      else .ok (items.filter (fun r => ¬ localItems.any (fun l => l.id = r.id)))

/-- `SyncService.downloadItems` (src/unnamed/part_021 lines 82-94): `[]` when
`canSync` is false; otherwise the async download with every rejection caught
and turned into `[]`. -/
def downloadItems (cfg : SyncConfig) (online : Bool)
    (dlFetch : FetchResult (List IStorable)) (localItems : List IStorable) :
    List IStorable :=
  if ¬ canSync cfg online then []
  else
    match downloadItemsAsync cfg dlFetch localItems with
    | .ok items => items
    | .error _ => []

/-- `SyncService.deleteItem` / `deleteItemAsync` (src/unnamed/part_021 lines
149-178), observed through the DELETE request it issues: `none` when no
remote request is made (`canSync` false, or falsy endpoint inside the async
body), otherwise the requested URL `{endpoint}/{storeName}/{id}`.  The fetch
outcome itself is irrelevant to whether the request is issued, and any
rejection is swallowed by the attached `.catch`. -/
def deleteItemRequest (cfg : SyncConfig) (online : Bool)
    (storeName id : String) : Option String :=
  if ¬ canSync cfg online then none
  else if ¬ strTruthy cfg.endpoint then none
  else some ((cfg.endpoint.getD "") ++ "/" ++ storeName ++ "/" ++ id)

end SyncService

namespace SyncStorage

/-- Result of `SyncStorage.getAll`: the local store as it stands afterwards,
and the array resolved to the caller. -/
structure GetAllResult where
  store : DB
  result : List IStorable
deriving Repr, DecidableEq

/-- `SyncStorage.getAll` (src/lib/sync/sync-storage.ts lines 30-57): read the
local store; if `config.enabled`, download the remote snapshot (already
filtered to remote-only ids) and, for each remote item whose id is absent
from the local map built from the original `localItems`, persist it with
`localStorage.save` and push the *original* remote item onto the result
array.  `now` is the clock reading the inner saves use. -/
def getAll (cfg : SyncConfig) (online : Bool)
    (dlFetch : FetchResult (List IStorable)) (now : Nat) (store : DB) :
    GetAllResult :=
  let localItems := IndexedDBStorage.getAll store
  if cfg.enabled then
    let remoteItems := SyncService.downloadItems cfg online dlFetch localItems
    let final :=
      remoteItems.foldl
        (fun (acc : DB × List IStorable) remoteItem =>
          if localItems.any (fun l => l.id = remoteItem.id) then acc
          else ((IndexedDBStorage.save now acc.1 remoteItem).1,
                acc.2 ++ [remoteItem]))
        (store, localItems)
    { store := final.1, result := final.2 }
  else
    { store := store, result := localItems }

/-- `SyncStorage.getById` (src/lib/sync/sync-storage.ts lines 62-64):
delegate to the local store. -/
def getById (store : DB) (id : String) : Option IStorable :=
  IndexedDBStorage.getById store id

/-- `SyncStorage.save` (src/lib/sync/sync-storage.ts lines 72-86): save
locally first; if `config.enabled`, read the full local snapshot and fire the
background upload with `.catch` attached (its outcome is discarded); resolve
with the locally saved item. -/
def save (cfg : SyncConfig) (online : Bool) (upFetch : FetchResult Unit)
    (now : Nat) (store : DB) (item : IStorable) : DB × IStorable :=
  let saved := IndexedDBStorage.save now store item
  if cfg.enabled then
    let allItems := IndexedDBStorage.getAll saved.1
    let _ := allItems
    let _ := SyncService.uploadItems cfg online upFetch
    (saved.1, saved.2)
  else
    (saved.1, saved.2)

/-- Result of `SyncStorage.delete`: the local store afterwards, the boolean
resolved to the caller, and the remote DELETE request issued by the
background task (`none` when no request is made). -/
structure DeleteResult where
  store : DB
  result : Bool
  remoteRequest : Option String
deriving Repr, DecidableEq

/-- `SyncStorage.delete` (src/lib/sync/sync-storage.ts lines 94-107): delete
locally first; only `if (deleted && this.config.enabled)` fire the
background `syncService.deleteItem(id)` (whose rejection is caught); resolve
with the local boolean. -/
def deleteOp (cfg : SyncConfig) (online : Bool) (storeName : String)
    (store : DB) (id : String) : DeleteResult :=
  let deleted := IndexedDBStorage.deleteOp store id
  if deleted.2 ∧ cfg.enabled then
    { store := deleted.1, result := deleted.2,
      remoteRequest := SyncService.deleteItemRequest cfg online storeName id }
  else
    { store := deleted.1, result := deleted.2, remoteRequest := none }

end SyncStorage

/-! Service worker (src/unnamed/part_000).  The Cache Storage API is modelled
as an association list from bucket name to bucket, a bucket as an association
list from request URL path to stored response.  `caches.open` creates an
empty bucket when the name is absent; `cache.match` looks a request's path up
in ONE bucket (it does not search other buckets). -/

/-- JS `String.prototype.startsWith`, modelled on the character sequence. -/
def jsStartsWith (s p : String) : Bool :=
  p.data.isPrefixOf s.data

/-- JS `String.prototype.endsWith`, modelled on the character sequence. -/
def jsEndsWith (s p : String) : Bool :=
  p.data.isSuffixOf s.data

/-- An HTTP response: its `ok` flag and an opaque body. -/
structure Response where
  ok : Bool
  body : String
deriving Repr, DecidableEq

/-- One cache bucket: stored responses keyed by URL path. -/
abbrev Bucket := List (String × Response)

/-- The origin's Cache Storage: buckets keyed by name. -/
abbrev CacheStorage := List (String × Bucket)

/-- `cache.match(request)` within one bucket. -/
def bucketMatch (b : Bucket) (path : String) : Option Response :=
  (b.find? (fun e => e.1 = path)).map Prod.snd

/-- `cache.put(request, response)` within one bucket. -/
def bucketPut (b : Bucket) (path : String) (resp : Response) : Bucket :=
  if b.any (fun e => e.1 = path) then
    b.map (fun e => if e.1 = path then (path, resp) else e)
  else
    b ++ [(path, resp)]

/-- `caches.open(name)`: ensure the bucket exists (created empty if absent). -/
def csOpen (cs : CacheStorage) (name : String) : CacheStorage :=
  if cs.any (fun nb => nb.1 = name) then cs else cs ++ [(name, [])]

/-- The bucket currently stored under `name` (empty if absent). -/
def csGet (cs : CacheStorage) (name : String) : Bucket :=
  ((cs.find? (fun nb => nb.1 = name)).map Prod.snd).getD []

/-- Replace the bucket stored under `name` (appending it if absent). -/
def csSetBucket (cs : CacheStorage) (name : String) (b : Bucket) : CacheStorage :=
  if cs.any (fun nb => nb.1 = name) then
    cs.map (fun nb => if nb.1 = name then (name, b) else nb)
  else
    cs ++ [(name, b)]

/-- `CACHE_NAME` (src/unnamed/part_000 line 15), the default runtime bucket. -/
def CACHE_NAME : String := "lifeos-v1"

/-- `APP_SHELL_CACHE` (src/unnamed/part_000 line 16). -/
def APP_SHELL_CACHE : String := "lifeos-shell-v1"

/-- `STATIC_CACHE` (src/unnamed/part_000 line 17). -/
def STATIC_CACHE : String := "lifeos-static-v1"

/-- `APP_SHELL_RESOURCES` (src/unnamed/part_000 lines 20-27). -/
def APP_SHELL_RESOURCES : List String :=
  ["/", "/tasks", "/habits", "/finance", "/fitness", "/nutrition"]

/-- `STATIC_ASSETS` (src/unnamed/part_000 lines 30-38). -/
def STATIC_ASSETS : List String :=
  ["/manifest.json", "/favicon.ico"]

/-- `cache.addAll(urls)` on an opened bucket: fetch every URL (outcomes given
by `fetchResp`) and store them; the whole call rejects if any response is not
ok. -/
def cacheOpenAddAll (cs : CacheStorage) (name : String)
    (entries : List (String × Response)) : Option CacheStorage :=
  if entries.all (fun e => e.2.ok) then
    let cs1 := csOpen cs name
    some (csSetBucket cs1 name
      (entries.foldl (fun b e => bucketPut b e.1 e.2) (csGet cs1 name)))
  else none

/-- The install event listener (src/unnamed/part_000 lines 43-64): cache the
app shell resources into `APP_SHELL_CACHE` and the static assets into
`STATIC_CACHE`; install fails (`none`) when either `addAll` rejects. -/
def installSW (cs : CacheStorage) (fetchResp : String → Response) :
    Option CacheStorage :=
  match cacheOpenAddAll cs APP_SHELL_CACHE
      (APP_SHELL_RESOURCES.map (fun u => (u, fetchResp u))) with
  | none => none
  | some cs1 =>
    cacheOpenAddAll cs1 STATIC_CACHE
      (STATIC_ASSETS.map (fun u => (u, fetchResp u)))

/-- The activate event listener's cache sweep (src/unnamed/part_000 lines
69-95), parameterized by the three current bucket-name constants it reads:
every bucket whose name differs from all three is deleted, then
`clients.claim()` runs (the returned `Bool`). -/
def activateSweep (shellName staticName defaultName : String)
    (cs : CacheStorage) : CacheStorage × Bool :=
  (cs.filter (fun nb =>
      ¬ (nb.1 ≠ shellName ∧ nb.1 ≠ staticName ∧ nb.1 ≠ defaultName)), true)

/-- The activate listener at the source's actual constants. -/
def activateSW (cs : CacheStorage) : CacheStorage × Bool :=
  activateSweep APP_SHELL_CACHE STATIC_CACHE CACHE_NAME cs

/-- An intercepted request, with the fields the worker inspects.
`acceptHtml` models `request.headers.get('accept')?.includes('text/html')`. -/
structure Request where
  method : String
  origin : String
  protocol : String
  path : String
  destination : String
  acceptHtml : Bool
deriving Repr, DecidableEq

/-- `isAppShellRequest` (src/unnamed/part_000 lines 138-143). -/
def isAppShellRequest (req : Request) : Bool :=
  req.destination = "document" ∨ req.acceptHtml

/-- `isStaticAsset` (src/unnamed/part_000 lines 148-172). -/
def isStaticAsset (req : Request) : Bool :=
  jsStartsWith req.path "/_next/static/" ∨
  jsStartsWith req.path "/_next/image" ∨
  jsStartsWith req.path "/icon-" ∨
  jsEndsWith req.path ".png" ∨
  jsEndsWith req.path ".jpg" ∨
  jsEndsWith req.path ".jpeg" ∨
  jsEndsWith req.path ".svg" ∨
  jsEndsWith req.path ".ico" ∨
  jsEndsWith req.path ".webp" ∨
  jsEndsWith req.path ".woff" ∨
  jsEndsWith req.path ".woff2" ∨
  jsEndsWith req.path ".ttf" ∨
  jsEndsWith req.path ".eot" ∨
  req.path = "/manifest.json" ∨
  req.path = "/favicon.ico"

/-- `isApiRequest` (src/unnamed/part_000 lines 177-181). -/
def isApiRequest (req : Request) : Bool :=
  jsStartsWith req.path "/api/"

/-- What one fetch strategy produced: the Cache Storage afterwards, the
response handed to the page (`none` = the error was re-thrown), and whether
the network `fetch` primitive was invoked. -/
structure Handled where
  cs : CacheStorage
  response : Option Response
  networkUsed : Bool
deriving Repr, DecidableEq

/-- `cacheFirst` (src/unnamed/part_000 lines 187-217): open `CACHE_NAME` and
match the request there; on a hit return the cached response (no network);
on a miss fetch (`net` is the network's outcome, `none` = offline/thrown),
caching ok responses; on a thrown fetch, fall back to the cached `/` of that
same bucket for document requests, else re-throw. -/
def cacheFirst (cs : CacheStorage) (req : Request) (net : Option Response) :
    Handled :=
  let cs1 := csOpen cs CACHE_NAME
  let bucket := csGet cs1 CACHE_NAME
  match bucketMatch bucket req.path with
  | some cached => { cs := cs1, response := some cached, networkUsed := false }
  | none =>
    match net with
    | some resp =>
      let cs2 :=
        if resp.ok then csSetBucket cs1 CACHE_NAME (bucketPut bucket req.path resp)
        else cs1
      { cs := cs2, response := some resp, networkUsed := true }
    | none =>
      if req.destination = "document" then
        match bucketMatch bucket "/" with
        | some offlinePage =>
          { cs := cs1, response := some offlinePage, networkUsed := true }
        | none => { cs := cs1, response := none, networkUsed := true }
      else { cs := cs1, response := none, networkUsed := true }

/-- `networkFirst` (src/unnamed/part_000 lines 223-253): fetch first, caching
ok responses in `CACHE_NAME`; on a thrown fetch serve the matching entry of
`CACHE_NAME`, else the cached `/` for documents, else re-throw. -/
def networkFirst (cs : CacheStorage) (req : Request) (net : Option Response) :
    Handled :=
  let cs1 := csOpen cs CACHE_NAME
  let bucket := csGet cs1 CACHE_NAME
  match net with
  | some resp =>
    let cs2 :=
      if resp.ok then csSetBucket cs1 CACHE_NAME (bucketPut bucket req.path resp)
      else cs1
    { cs := cs2, response := some resp, networkUsed := true }
  | none =>
    match bucketMatch bucket req.path with
    | some cached => { cs := cs1, response := some cached, networkUsed := true }
    | none =>
      if req.destination = "document" then
        match bucketMatch bucket "/" with
        | some fallback =>
          { cs := cs1, response := some fallback, networkUsed := true }
        | none => { cs := cs1, response := none, networkUsed := true }
      else { cs := cs1, response := none, networkUsed := true }

/-- Outcome of the fetch event listener: the request is passed through
untouched, or `event.respondWith` resolves a strategy's outcome. -/
inductive HandleResult where
  | passthrough
  | responded (h : Handled)
deriving Repr, DecidableEq

/-- The fetch event listener (src/unnamed/part_000 lines 100-133):
non-GET, cross-origin, and non-http(s) requests are not intercepted; shell
and static-asset requests go to `cacheFirst`; API requests and everything
else go to `networkFirst`. -/
def handleFetch (selfOrigin : String) (cs : CacheStorage) (req : Request)
    (net : Option Response) : HandleResult :=
  if req.method ≠ "GET" then .passthrough
  else if req.origin ≠ selfOrigin then .passthrough
  else if ¬ jsStartsWith req.protocol "http" then .passthrough
  else if isAppShellRequest req ∨ isStaticAsset req then
    .responded (cacheFirst cs req net)
  else if isApiRequest req then
    .responded (networkFirst cs req net)
  else
    .responded (networkFirst cs req net)

/-! Helper lemmas about the association-list object store. -/

/-- Finding the put item in the replace branch of `dbPut`. -/
theorem find?_map_replace (store : DB) (item : IStorable)
    (h : store.any (fun r => r.id = item.id) = true) :
    (store.map (fun r => if r.id = item.id then item else r)).find?
      (fun r => r.id = item.id) = some item := by
  induction store with
  | nil => simp at h
  | cons r rs ih =>
    simp only [List.map_cons]
    by_cases hr : r.id = item.id
    · rw [if_pos hr, List.find?_cons_of_pos _ (by simp)]
    · rw [if_neg hr, List.find?_cons_of_neg _ (by simp [hr])]
      exact ih (by simpa [hr] using h)

/-- Finding the put item in the append branch of `dbPut`. -/
theorem find?_append_new (store : DB) (item : IStorable)
    (h : store.any (fun r => r.id = item.id) = false) :
    (store ++ [item]).find? (fun r => r.id = item.id) = some item := by
  rw [List.find?_append]
  have h1 : store.find? (fun r => r.id = item.id) = none := by
    rw [List.find?_eq_none]
    intro x hx
    have := (List.any_eq_false.mp h) x hx
    simpa using this
  rw [h1]
  simp

/-- After `dbPut store item`, looking up `item.id` yields `item`. -/
theorem dbGet_dbPut_self (store : DB) (item : IStorable) :
    dbGet (dbPut store item) item.id = some item := by
  unfold dbGet dbPut
  by_cases h : store.any (fun r => r.id = item.id)
  · rw [if_pos h]
    exact find?_map_replace store item h
  · rw [if_neg h]
    exact find?_append_new store item (by simpa using h)

/-- `dbPut` leaves every other key's lookup unchanged. -/
theorem dbGet_dbPut_ne (store : DB) (item : IStorable) (j : String)
    (hj : j ≠ item.id) :
    dbGet (dbPut store item) j = dbGet store j := by
  unfold dbGet dbPut
  by_cases h : store.any (fun r => r.id = item.id)
  · rw [if_pos h]
    clear h
    induction store with
    | nil => rfl
    | cons r rs ih =>
      simp only [List.map_cons]
      by_cases hr : r.id = item.id
      · rw [if_pos hr,
          List.find?_cons_of_neg _ (by simp [Ne.symm hj]),
          List.find?_cons_of_neg _ (by simp [hr, Ne.symm hj])]
        exact ih
      · rw [if_neg hr]
        by_cases hpr : r.id = j
        · rw [List.find?_cons_of_pos _ (by simp [hpr]),
            List.find?_cons_of_pos _ (by simp [hpr])]
        · rw [List.find?_cons_of_neg _ (by simp [hpr]),
            List.find?_cons_of_neg _ (by simp [hpr])]
          exact ih
  · rw [if_neg h, List.find?_append, List.find?_singleton]
    simp [Ne.symm hj]

/-- After filtering a key out of the store, its lookup is `none`. -/
theorem dbGet_filter_out (store : DB) (id : String) :
    dbGet (store.filter (fun r => r.id ≠ id)) id = none := by
  unfold dbGet
  rw [List.find?_eq_none]
  intro x hx
  have hmem := List.mem_filter.mp hx
  simpa using of_decide_eq_true hmem.2

/-- Mapping `Prod.fst` over a filter that only inspects the first component
commutes with filtering the mapped list. -/
theorem map_fst_filter (p : String → Bool) (cs : CacheStorage) :
    (cs.filter (fun nb => p nb.1)).map Prod.fst = (cs.map Prod.fst).filter p := by
  induction cs with
  | nil => rfl
  | cons a l ih => by_cases h : p a.1 <;> simp [List.filter_cons, h, ih]

/-- The bucket names surviving the activation sweep are exactly the previous
names that match one of the three current bucket-name constants. -/
theorem activateSweep_names (sh st df : String) (cs : CacheStorage) :
    (activateSweep sh st df cs).1.map Prod.fst =
      (cs.map Prod.fst).filter (fun n => n = sh ∨ n = st ∨ n = df) := by
  have h1 : (activateSweep sh st df cs).1
      = cs.filter (fun nb => decide (nb.1 = sh ∨ nb.1 = st ∨ nb.1 = df)) := by
    show cs.filter _ = _
    apply List.filter_congr
    intro a _
    exact decide_eq_decide.mpr (by tauto)
  rw [h1]
  exact map_fst_filter (fun n => decide (n = sh ∨ n = st ∨ n = df)) cs

/-- The merge loop of `SyncStorage.getAll` only ever appends to the result
array it threads. -/
theorem getAll_merge_extends (now : Nat) (localItems : List IStorable)
    (remote : List IStorable) :
    ∀ acc : DB × List IStorable, ∃ extra,
      (remote.foldl (fun (acc : DB × List IStorable) remoteItem =>
          if localItems.any (fun l => l.id = remoteItem.id) then acc
          else ((IndexedDBStorage.save now acc.1 remoteItem).1,
                acc.2 ++ [remoteItem])) acc).2 = acc.2 ++ extra := by
  induction remote with
  | nil => exact fun acc => ⟨[], by simp⟩
  | cons r rs ih =>
    intro acc
    simp only [List.foldl_cons]
    by_cases h : localItems.any (fun l => l.id = r.id)
    · rw [if_pos h]; exact ih acc
    · rw [if_neg h]
      obtain ⟨extra, hx⟩ := ih ((IndexedDBStorage.save now acc.1 r).1, acc.2 ++ [r])
      exact ⟨r :: extra, by simpa using hx⟩

/-- A thrown network error during download is absorbed: `downloadItems`
returns the empty list. -/
theorem downloadItems_netError (cfg : SyncConfig) (online : Bool)
    (l : List IStorable) :
    SyncService.downloadItems cfg online .netError l = [] := by
  unfold SyncService.downloadItems SyncService.downloadItemsAsync
  by_cases h1 : SyncService.canSync cfg online
  · simp only [h1]
    by_cases h2 : strTruthy cfg.endpoint <;> simp [h2]
  · simp [h1]

/-- A non-success download response is absorbed: `downloadItems` returns the
empty list. -/
theorem downloadItems_notOk (cfg : SyncConfig) (online : Bool)
    (items l : List IStorable) :
    SyncService.downloadItems cfg online (.response false items) l = [] := by
  unfold SyncService.downloadItems SyncService.downloadItemsAsync
  by_cases h1 : SyncService.canSync cfg online
  · simp only [h1]
    by_cases h2 : strTruthy cfg.endpoint <;> simp [h2]
  · simp [h1]

/-! Claim theorems. -/

/-- C1, code evaluation at the failing input: with an empty Cache Storage,
install succeeds (all fetches return ok responses) and stores the shell route
`/` in `APP_SHELL_CACHE`; yet the fetch handler on a same-origin GET
navigation for `/` with the network unavailable resolves `cacheFirst` to a
propagated failure (`response = none`) after attempting the network — the
install-phase cache is never consulted, because `cacheFirst` matches only
inside the `CACHE_NAME` bucket, which install never populates.  The claim
says the cached shell would be returned without invoking the network. -/
theorem C1_offline_shell_not_served :
    (installSW [] (fun _ => { ok := true, body := "page" })).isSome = true
    ∧ bucketMatch
        (csGet ((installSW [] (fun _ => { ok := true, body := "page" })).getD [])
          APP_SHELL_CACHE) "/"
      = some { ok := true, body := "page" }
    ∧ handleFetch "o"
        ((installSW [] (fun _ => { ok := true, body := "page" })).getD [])
        { method := "GET", origin := "o", protocol := "https:",
          path := "/", destination := "document", acceptHtml := true } none
      = .responded
          { cs := csOpen
              ((installSW [] (fun _ => { ok := true, body := "page" })).getD [])
              CACHE_NAME,
            response := none, networkUsed := true } := by
  refine ⟨rfl, rfl, ?_⟩
  decide

/-- C2, counterexample: `createdAt` is NOT preserved from the existing stored
record.  First persistence at time 1 stores `createdAt = some 1`; a later
save of the same id at time 5 with `createdAt` omitted overwrites the stored
`createdAt` to `some 5 ≠ some 1`, because `save` computes
`item.createdAt || now` from the incoming record only and never consults the
existing stored record. -/
theorem C2_createdAt_not_preserved :
    (dbGet (IndexedDBStorage.save 1 [] ⟨"a", some 1, 0, "x"⟩).1 "a").map
        IStorable.createdAt = some (some 1)
    ∧ (dbGet (IndexedDBStorage.save 5
          (IndexedDBStorage.save 1 [] ⟨"a", some 1, 0, "x"⟩).1
          ⟨"a", none, 0, "x"⟩).1 "a").map IStorable.createdAt = some (some 5)
    ∧ (some 5 : Option Nat) ≠ some 1 := by
  refine ⟨rfl, rfl, by decide⟩

/-- C2, amended: `save` is an upsert keyed on `id`.  The stored `updatedAt`
is overwritten to the current time regardless of the caller-supplied value;
`createdAt` is taken from the incoming record when set and defaulted to the
current time when unset — the existing stored record is never consulted, so
a later save of an existing id with `createdAt` omitted (or different)
changes the stored `createdAt`; records under other ids are untouched. -/
theorem C2_save_upsert (now : Nat) (store : DB) (item : IStorable) :
    dbGet (IndexedDBStorage.save now store item).1 item.id
        = some (IndexedDBStorage.save now store item).2
    ∧ (IndexedDBStorage.save now store item).2.updatedAt = now
    ∧ (item.createdAt = none →
        (IndexedDBStorage.save now store item).2.createdAt = some now)
    ∧ (∀ c, item.createdAt = some c →
        (IndexedDBStorage.save now store item).2.createdAt = some c)
    ∧ (∀ j, j ≠ item.id →
        dbGet (IndexedDBStorage.save now store item).1 j = dbGet store j) := by
  refine ⟨?_, rfl, ?_, ?_, ?_⟩
  · simpa [IndexedDBStorage.save] using
      dbGet_dbPut_self store (IndexedDBStorage.save now store item).2
  · intro h; simp [IndexedDBStorage.save, h]
  · intro c h; simp [IndexedDBStorage.save, h]
  · intro j hj
    simpa [IndexedDBStorage.save] using
      dbGet_dbPut_ne store
        { item with updatedAt := now, createdAt := some (item.createdAt.getD now) }
        j (by simpa using hj)

/-- C2, witness for the amended theorem at a concrete input. -/
theorem C2_save_upsert_witness :
    dbGet (IndexedDBStorage.save 5 [] ⟨"a", none, 0, "x"⟩).1 "a"
        = some (IndexedDBStorage.save 5 [] ⟨"a", none, 0, "x"⟩).2
    ∧ (IndexedDBStorage.save 5 [] ⟨"a", none, 0, "x"⟩).2.createdAt = some 5
    ∧ dbGet (IndexedDBStorage.save 5 [] ⟨"a", none, 0, "x"⟩).1 "b" = dbGet [] "b" :=
  ⟨(C2_save_upsert 5 [] ⟨"a", none, 0, "x"⟩).1,
   (C2_save_upsert 5 [] ⟨"a", none, 0, "x"⟩).2.2.1 rfl,
   (C2_save_upsert 5 [] ⟨"a", none, 0, "x"⟩).2.2.2.2 "b" (by decide)⟩

/-- C3, code evaluation at the failing input: with a record `t1` present,
sync enabled, an endpoint set, and the device online (`canSync = true`),
`SyncStorage.delete "t1"` removes the record locally but resolves `false`
and issues NO remote DELETE request — `IndexedDBStorage.delete` returns
`result !== undefined` where the idb delete promise resolves `undefined`, so
the `deleted && config.enabled` guard never fires.  The claim (and the spec)
say a successful local delete under sync conditions requests remote
deletion. -/
theorem C3_remote_delete_never_fires :
    SyncService.canSync ⟨true, some "e", none⟩ true = true
    ∧ SyncStorage.deleteOp ⟨true, some "e", none⟩ true "tasks"
        [⟨"t1", some 1, 2, "x"⟩] "t1"
      = { store := [], result := false, remoteRequest := none } := by
  constructor
  · decide
  · decide

/-- C4: for every store and every id, the Local Store's delete resolves
`false` — when no record with the id exists and equally when a record existed
and is durably removed (the second conjunct shows the id is absent
afterwards).  The return value is the idb delete result (`undefined`)
compared against `undefined`, hence constantly `false`. -/
theorem C4_delete_always_false (store : DB) (id : String) :
    (IndexedDBStorage.deleteOp store id).2 = false
    ∧ dbGet (IndexedDBStorage.deleteOp store id).1 id = none := by
  refine ⟨rfl, ?_⟩
  simpa [IndexedDBStorage.deleteOp, idbDelete] using dbGet_filter_out store id

/-- C5: merging during `getAll` with local records `{A}` and remote records
`{Ar, B}` where `Ar.id = A.id` (any timestamps, in particular a strictly
newer remote `updatedAt`) and `B.id` absent locally: the store afterwards
holds exactly the ids `A.id` and `B.id`; the record at `A.id` is exactly `A`
(never overwritten from remote); and exactly the remote-only record `B` is
imported (persisted via the local `save`, which stamps `updatedAt := now` and
defaults a missing `createdAt`). -/
theorem C5_merge_local_wins (cfg : SyncConfig) (now : Nat) (A Ar B : IStorable)
    (hen : cfg.enabled = true) (hep : strTruthy cfg.endpoint = true)
    (hA : Ar.id = A.id) (hB : B.id ≠ A.id) :
    (SyncStorage.getAll cfg true (.response true [Ar, B]) now [A]).store
        = [A, { B with updatedAt := now, createdAt := some (B.createdAt.getD now) }]
    ∧ SyncStorage.getById
        (SyncStorage.getAll cfg true (.response true [Ar, B]) now [A]).store A.id
        = some A
    ∧ (SyncStorage.getAll cfg true (.response true [Ar, B]) now [A]).store.map
        IStorable.id = [A.id, B.id] := by
  have hcan : SyncService.canSync cfg true = true := by
    simp [SyncService.canSync, hen, hep]
  have hdl : SyncService.downloadItems cfg true (.response true [Ar, B]) [A]
      = [B] := by
    simp [SyncService.downloadItems, SyncService.downloadItemsAsync, hcan, hep,
      hA, Ne.symm hB]
  have hstore : (SyncStorage.getAll cfg true (.response true [Ar, B]) now
      [A]).store
      = [A, { B with updatedAt := now, createdAt := some (B.createdAt.getD now) }] := by
    simp [SyncStorage.getAll, hen, IndexedDBStorage.getAll, hdl,
      IndexedDBStorage.save, dbPut, Ne.symm hB]
  refine ⟨hstore, ?_, ?_⟩
  · rw [hstore]
    simp [SyncStorage.getById, IndexedDBStorage.getById, dbGet]
  · rw [hstore]
    simp

/-- C5, witness at a concrete input (the remote conflicting copy carries a
strictly newer `updatedAt`, 99 > 10, and still loses). -/
theorem C5_merge_local_wins_witness :
    (SyncStorage.getAll ⟨true, some "e", none⟩ true
        (.response true [⟨"a", some 1, 99, "p2"⟩, ⟨"b", some 2, 20, "pb"⟩])
        50 [⟨"a", some 1, 10, "pa"⟩]).store
      = [⟨"a", some 1, 10, "pa"⟩, ⟨"b", some 2, 50, "pb"⟩]
    ∧ SyncStorage.getById
        (SyncStorage.getAll ⟨true, some "e", none⟩ true
          (.response true [⟨"a", some 1, 99, "p2"⟩, ⟨"b", some 2, 20, "pb"⟩])
          50 [⟨"a", some 1, 10, "pa"⟩]).store "a"
      = some ⟨"a", some 1, 10, "pa"⟩
    ∧ (SyncStorage.getAll ⟨true, some "e", none⟩ true
        (.response true [⟨"a", some 1, 99, "p2"⟩, ⟨"b", some 2, 20, "pb"⟩])
        50 [⟨"a", some 1, 10, "pa"⟩]).store.map IStorable.id = ["a", "b"] :=
  C5_merge_local_wins ⟨true, some "e", none⟩ 50
    ⟨"a", some 1, 10, "pa"⟩ ⟨"a", some 1, 99, "p2"⟩ ⟨"b", some 2, 20, "pb"⟩
    rfl (by decide) rfl (by decide)

/-- C6: for a valid record `r` (non-empty id, `createdAt` set), `save(r)`
followed by `getById(r.id)` returns a record equal to `r` in `id`,
`createdAt` and payload, with `updatedAt ≥` the time of the save call. -/
theorem C6_save_then_getById (now : Nat) (store : DB) (r : IStorable) (c : Nat)
    (_hid : r.id ≠ "") (hc : r.createdAt = some c) :
    ∃ s, IndexedDBStorage.getById (IndexedDBStorage.save now store r).1 r.id
        = some s
      ∧ s.id = r.id ∧ s.createdAt = r.createdAt ∧ s.payload = r.payload
      ∧ now ≤ s.updatedAt := by
  refine ⟨(IndexedDBStorage.save now store r).2, ?_, rfl, ?_, rfl, ?_⟩
  · simpa [IndexedDBStorage.getById, IndexedDBStorage.save] using
      dbGet_dbPut_self store (IndexedDBStorage.save now store r).2
  · simp [IndexedDBStorage.save, hc]
  · simp [IndexedDBStorage.save]

/-- C6, witness at a concrete input. -/
theorem C6_save_then_getById_witness :
    (⟨"a", some 1, 0, "x"⟩ : IStorable).id ≠ ""
    ∧ ∃ s, IndexedDBStorage.getById
          (IndexedDBStorage.save 7 [] ⟨"a", some 1, 0, "x"⟩).1 "a" = some s
        ∧ s.id = "a" ∧ s.createdAt = some 1 ∧ s.payload = "x"
        ∧ 7 ≤ s.updatedAt :=
  ⟨by decide, C6_save_then_getById 7 [] ⟨"a", some 1, 0, "x"⟩ 1 (by decide) rfl⟩

/-- C7: after the activation sweep, the surviving bucket names are exactly
the pre-existing names equal to the current shell, static, or default
bucket-name constants (every other bucket is deleted), and the worker then
claims all clients; in particular, sweeping with generation-v2 constants over
a storage holding a stale `lifeos-shell-v1` next to `lifeos-shell-v2` leaves
`shell-v1` absent and `shell-v2` present. -/
theorem C7_activation (cs : CacheStorage) :
    (activateSW cs).1.map Prod.fst = (cs.map Prod.fst).filter
        (fun n => n = APP_SHELL_CACHE ∨ n = STATIC_CACHE ∨ n = CACHE_NAME)
    ∧ (activateSW cs).2 = true
    ∧ activateSweep "lifeos-shell-v2" "lifeos-static-v2" "lifeos-v2"
        [("lifeos-shell-v1", ([] : Bucket)), ("lifeos-shell-v2", [])]
      = ([("lifeos-shell-v2", [])], true) :=
  ⟨activateSweep_names _ _ _ cs, rfl, by decide⟩

/-- C8: no Sync Transport outcome ever reaches the caller or perturbs the
local result.  `save` resolves exactly as the plain local save does for every
upload outcome; `delete` resolves the local store and boolean unchanged;
`getAll` always returns the local records first (possibly followed by
imported extras); and under a thrown network error or a non-success download
response, `getAll` returns exactly the local records. -/
theorem C8_transport_failures_absorbed :
    (∀ (cfg : SyncConfig) (online : Bool) (upFetch : FetchResult Unit)
        (now : Nat) (store : DB) (item : IStorable),
      SyncStorage.save cfg online upFetch now store item
        = IndexedDBStorage.save now store item)
    ∧ (∀ (cfg : SyncConfig) (online : Bool) (storeName : String)
        (store : DB) (id : String),
      (SyncStorage.deleteOp cfg online storeName store id).store
          = (IndexedDBStorage.deleteOp store id).1
        ∧ (SyncStorage.deleteOp cfg online storeName store id).result
          = (IndexedDBStorage.deleteOp store id).2)
    ∧ (∀ (cfg : SyncConfig) (online : Bool)
        (dlFetch : FetchResult (List IStorable)) (now : Nat) (store : DB),
      ∃ extra, (SyncStorage.getAll cfg online dlFetch now store).result
          = store ++ extra)
    ∧ (∀ (cfg : SyncConfig) (online : Bool) (now : Nat) (store : DB),
      (SyncStorage.getAll cfg online .netError now store).result = store
      ∧ ∀ items, (SyncStorage.getAll cfg online (.response false items)
          now store).result = store) := by
  refine ⟨?_, ?_, ?_, ?_⟩
  · intro cfg online upFetch now store item
    unfold SyncStorage.save
    by_cases h : cfg.enabled <;> simp [h]
  · intro cfg online storeName store id
    by_cases h : (IndexedDBStorage.deleteOp store id).2 = true ∧ cfg.enabled = true
    · simp [SyncStorage.deleteOp, h]
    · simp [SyncStorage.deleteOp, h]
  · intro cfg online dlFetch now store
    unfold SyncStorage.getAll
    by_cases h : cfg.enabled
    · simp only [h, if_true]
      obtain ⟨extra, hx⟩ := getAll_merge_extends now
        (IndexedDBStorage.getAll store)
        (SyncService.downloadItems cfg online dlFetch
          (IndexedDBStorage.getAll store))
        (store, IndexedDBStorage.getAll store)
      exact ⟨extra, hx⟩
    · simp [h, IndexedDBStorage.getAll]
  · intro cfg online now store
    constructor
    · unfold SyncStorage.getAll
      by_cases h : cfg.enabled <;>
        simp [h, downloadItems_netError, IndexedDBStorage.getAll]
    · intro items
      unfold SyncStorage.getAll
      by_cases h : cfg.enabled <;>
        simp [h, downloadItems_notOk, IndexedDBStorage.getAll]

/-- C9: reading the sync configuration is total (the embedding is a total
function, mirroring the source's try/catch) and a read failure means "sync
disabled": an unavailable backing store, an absent slot, or an unparseable
stored string each yield the default configuration (whose `enabled` is
`false`), while a present, non-empty, parseable slot yields the stored
configuration. -/
theorem C9_config_read :
    (∀ (w : Bool) (p : String → Option SyncConfig),
      getSyncConfig w .unavailable p = defaultSyncConfig)
    ∧ (∀ (w : Bool) (p : String → Option SyncConfig),
      getSyncConfig w (.value none) p = defaultSyncConfig)
    ∧ (∀ (p : String → Option SyncConfig) (s : String), p s = none →
      getSyncConfig true (.value (some s)) p = defaultSyncConfig)
    ∧ (∀ (p : String → Option SyncConfig) (s : String) (cfg : SyncConfig),
      s ≠ "" → p s = some cfg →
      getSyncConfig true (.value (some s)) p = cfg)
    ∧ defaultSyncConfig.enabled = false := by
  refine ⟨?_, ?_, ?_, ?_, rfl⟩
  · intro w p
    unfold getSyncConfig
    by_cases h : w <;> simp [h]
  · intro w p
    unfold getSyncConfig
    by_cases h : w <;> simp [h]
  · intro p s hp
    unfold getSyncConfig
    by_cases hs : s = "" <;> simp [hs, hp]
  · intro p s cfg hs hp
    unfold getSyncConfig
    simp [hs, hp]

/-- C9, witness at concrete inputs: a corrupt slot falls back to the default
and a parseable slot is returned as stored. -/
theorem C9_config_read_witness :
    getSyncConfig true (.value (some "x")) (fun _ => none) = defaultSyncConfig
    ∧ getSyncConfig true (.value (some "x"))
        (fun _ => some ⟨true, some "e", none⟩) = ⟨true, some "e", none⟩ :=
  ⟨C9_config_read.2.2.1 (fun _ => none) "x" rfl,
   C9_config_read.2.2.2.1 (fun _ => some ⟨true, some "e", none⟩) "x"
      ⟨true, some "e", none⟩ (by decide) rfl⟩

/-- C10: when `getAll` imports a remote-only record `B` (with `B.updatedAt`
different from the import time), the list that `getAll` resolves contains `B`
with its original timestamps, while the copy persisted locally has
`updatedAt` rewritten to the import time (and `createdAt` defaulted when
missing) — so an immediately subsequent `getById` for `B.id` returns an
`updatedAt` different from the list entry's. -/
theorem C10_import_rewrites_updatedAt (cfg : SyncConfig) (now : Nat)
    (B : IStorable) (hen : cfg.enabled = true)
    (hep : strTruthy cfg.endpoint = true) (hup : B.updatedAt ≠ now) :
    (SyncStorage.getAll cfg true (.response true [B]) now []).result = [B]
    ∧ SyncStorage.getById
        (SyncStorage.getAll cfg true (.response true [B]) now []).store B.id
      = some { B with updatedAt := now, createdAt := some (B.createdAt.getD now) }
    ∧ ∃ s, SyncStorage.getById
          (SyncStorage.getAll cfg true (.response true [B]) now []).store B.id
        = some s ∧ s.updatedAt ≠ B.updatedAt := by
  have hcan : SyncService.canSync cfg true = true := by
    simp [SyncService.canSync, hen, hep]
  have hdl : SyncService.downloadItems cfg true (.response true [B]) [] = [B] := by
    simp [SyncService.downloadItems, SyncService.downloadItemsAsync, hcan, hep]
  have hres : (SyncStorage.getAll cfg true (.response true [B]) now []).result
      = [B] := by
    simp [SyncStorage.getAll, hen, IndexedDBStorage.getAll, hdl]
  have hsto : SyncStorage.getById
      (SyncStorage.getAll cfg true (.response true [B]) now []).store B.id
      = some { B with updatedAt := now, createdAt := some (B.createdAt.getD now) } := by
    simp [SyncStorage.getAll, hen, IndexedDBStorage.getAll, hdl,
      IndexedDBStorage.save, dbPut, SyncStorage.getById,
      IndexedDBStorage.getById, dbGet]
  refine ⟨hres, hsto, ⟨_, hsto, ?_⟩⟩
  simpa using Ne.symm hup

/-- C10, witness at a concrete input: the list entry keeps `updatedAt = 20`,
the persisted copy reads back with `updatedAt = 50`. -/
theorem C10_import_rewrites_updatedAt_witness :
    (SyncStorage.getAll ⟨true, some "e", none⟩ true
        (.response true [⟨"b", some 2, 20, "pb"⟩]) 50 []).result
      = [⟨"b", some 2, 20, "pb"⟩]
    ∧ SyncStorage.getById
        (SyncStorage.getAll ⟨true, some "e", none⟩ true
          (.response true [⟨"b", some 2, 20, "pb"⟩]) 50 []).store "b"
      = some ⟨"b", some 2, 50, "pb"⟩
    ∧ ∃ s, SyncStorage.getById
          (SyncStorage.getAll ⟨true, some "e", none⟩ true
            (.response true [⟨"b", some 2, 20, "pb"⟩]) 50 []).store "b"
        = some s ∧ s.updatedAt ≠ 20 :=
  C10_import_rewrites_updatedAt ⟨true, some "e", none⟩ 50
    ⟨"b", some 2, 20, "pb"⟩ rfl (by decide) (by decide)

end LifeOS
